import Mathlib

/-!
Verification of the stub-enrichment engine (docify): a shallow embedding of the
analysis and rewriting pipeline of src/docify.py, with theorems settling the
frozen claims about its specification.

The embedding follows the Python source function by function.  External
collaborators (the live-symbol provider, Python string builtins, the lossless
parser/printer) are modelled by explicit executable Lean definitions; each such
model carries a comment naming the Python entity it stands for.  Strings are
modelled as lists of characters restricted to the ASCII fragment, which covers
every character class the quoting and reachability logic inspects.
-/

set_option maxHeartbeats 1000000

namespace Docify

/-! ## Reachability analysis: condition evaluation (ConditionProvider) -/

/-- The six comparison operators recognised by `ConditionProvider.leave_Comparison`
(GreaterThanEqual, GreaterThan, Equal, NotEqual, LessThan, LessThanEqual). -/
inductive CmpOp where
  | lt | le | eq | ne | gt | ge
deriving DecidableEq, Repr

/-- Models Python's built-in tuple comparison on tuples of integers, as an
`Ordering`: elementwise comparison left to right; if one tuple is a strict
prefix of the other, the shorter compares less.  This is the semantics of the
comparisons `sys.version_info <op> get_version(els)` evaluated inside the
`m.MatchIfTrue` lambdas of `ConditionProvider.leave_Comparison`. -/
def pyTupleCmp : List Nat → List Nat → Ordering
  | [], [] => .eq
  | [], _ :: _ => .lt
  | _ :: _, [] => .gt
  | a :: xs, b :: ys =>
    if a < b then .lt else if b < a then .gt else pyTupleCmp xs ys

/-- Interprets one of the six Python comparison operators over the `Ordering`
produced by tuple comparison (Python's `>=` on tuples holds exactly when the
lexicographic comparison is not `lt`, and so on). -/
def applyCmpOp : CmpOp → Ordering → Bool
  | .lt, o => o == .lt
  | .le, o => o != .gt
  | .eq, o => o == .eq
  | .ne, o => o != .eq
  | .gt, o => o == .gt
  | .ge, o => o != .lt

/-- The restricted test-expression shapes the reachability analyzer inspects.
`verCmp op lit` is a comparison `sys.version_info <op> (lit)` against a tuple
literal of integer literals; `platCmp isEq lit` is `sys.platform == lit` or
`sys.platform != lit` against a string literal; `notE`, `andE`, `orE` are the
boolean operations handled by `leave_UnaryOperation` / `leave_BooleanOperation`;
`other` stands for every other expression shape (no metadata is set for it). -/
inductive PyExpr where
  | verCmp (op : CmpOp) (lit : List Nat)
  | platCmp (isEq : Bool) (lit : List Char)
  | notE (e : PyExpr)
  | andE (l r : PyExpr)
  | orE (l r : PyExpr)
  | other
deriving DecidableEq, Repr

/-- The externally supplied runtime facts: the current `sys.version_info`
tuple (its integer components; the comparisons against literals of at most
three elements never inspect the non-integer release-level component). -/
structure Config where
  versionInfo : List Nat
deriving DecidableEq, Repr

/-- The condition metadata computed by `ConditionProvider`: `some b` when the
provider sets metadata `b` on the expression node, `none` when it sets none
(the "unknown" outcome).

Version comparisons (`leave_Comparison`, first matcher): the shape requires a
tuple literal of 1 to 3 integer elements; the value is Python's full tuple
comparison of `sys.version_info` against the literal, with no truncation.

Platform comparisons (`leave_Comparison`, second matcher): the inner
`m.MatchIfTrue(lambda val: sys.platform == val)` compares the runtime platform
string with the `cst.SimpleString` comparator NODE, never with its text, and a
string never equals a CST node; so the equality form always produces `False`
and the inequality form always produces `True`, independently of the actual
platform.  The model reproduces this faithfully, which is why it needs no
platform field in `Config`.

Boolean operations (`leave_UnaryOperation` / `leave_BooleanOperation`): if an
operand has no metadata the method returns without setting any; otherwise
`not` flips, `and` / `or` combine the two values. -/
def conditionValue (cfg : Config) : PyExpr → Option Bool
  | .verCmp op lit =>
    if 1 ≤ lit.length ∧ lit.length ≤ 3 then
      some (applyCmpOp op (pyTupleCmp cfg.versionInfo lit))
    else none
  | .platCmp isEq _ => some (!isEq)
  | .notE e =>
    match conditionValue cfg e with
    | none => none
    | some v => some (!v)
  | .andE l r =>
    match conditionValue cfg l, conditionValue cfg r with
    | some a, some b => some (a && b)
    | _, _ => none
  | .orE l r =>
    match conditionValue cfg l, conditionValue cfg r with
    | some a, some b => some (a || b)
    | _, _ => none
  | .other => none

/-- Specification-side statement of one version comparison, written from the
spec's words with the standard lexicographic order on lists (`List.Lex`):
`lt` holds when the left list is lexicographically smaller, a strict prefix
counting as smaller; the other operators derive from `lt` and equality in the
usual way. -/
def verCmpProp (op : CmpOp) (a b : List Nat) : Prop :=
  match op with
  | .lt => List.Lex (· < ·) a b
  | .le => List.Lex (· < ·) a b ∨ a = b
  | .eq => a = b
  | .ne => a ≠ b
  | .gt => List.Lex (· < ·) b a
  | .ge => List.Lex (· < ·) b a ∨ a = b

/-- The C1 claim's comparison semantics, written from the spec's words: the
current-version tuple is truncated to the arity of the literal before the
standard lexicographic comparison. -/
def truncVerCmpProp (op : CmpOp) (ver lit : List Nat) : Prop :=
  verCmpProp op (ver.take lit.length) lit

theorem pyTupleCmp_eq_iff : ∀ a b : List Nat, pyTupleCmp a b = .eq ↔ a = b := by
  intro a
  induction a with
  | nil => intro b; cases b <;> simp [pyTupleCmp]
  | cons x xs ih =>
    intro b
    cases b with
    | nil => simp [pyTupleCmp]
    | cons y ys =>
      simp only [pyTupleCmp]
      by_cases h1 : x < y
      · simp only [if_pos h1]
        constructor
        · intro h; cases h
        · intro h
          have hx : x = y := by injection h
          omega
      · by_cases h2 : y < x
        · simp only [if_neg h1, if_pos h2]
          constructor
          · intro h; cases h
          · intro h
            have hx : x = y := by injection h
            omega
        · have hxy : x = y := by omega
          subst hxy
          simp only [if_neg h1, if_neg h2]
          rw [ih ys]
          constructor
          · intro h; rw [h]
          · intro h; injection h

theorem pyTupleCmp_lt_iff : ∀ a b : List Nat, pyTupleCmp a b = .lt ↔ List.Lex (· < ·) a b := by
  intro a
  induction a with
  | nil =>
    intro b
    cases b with
    | nil =>
      simp only [pyTupleCmp]
      constructor
      · intro h; cases h
      · intro h; cases h
    | cons y ys =>
      simp only [pyTupleCmp]
      exact ⟨fun _ => List.Lex.nil, fun _ => trivial⟩
  | cons x xs ih =>
    intro b
    cases b with
    | nil =>
      simp only [pyTupleCmp]
      constructor
      · intro h; cases h
      · intro h; cases h
    | cons y ys =>
      simp only [pyTupleCmp]
      by_cases h1 : x < y
      · simp only [if_pos h1]
        exact ⟨fun _ => List.Lex.rel h1, fun _ => trivial⟩
      · by_cases h2 : y < x
        · simp only [if_neg h1, if_pos h2]
          constructor
          · intro h; cases h
          · intro h
            cases h with
            | cons h => omega
            | rel h => omega
        · have hxy : x = y := by omega
          subst hxy
          simp only [if_neg h1, if_neg h2]
          rw [ih ys]
          constructor
          · exact fun h => List.Lex.cons h
          · intro h
            cases h with
            | cons h => exact h
            | rel h => omega

theorem pyTupleCmp_swap : ∀ a b : List Nat, (pyTupleCmp a b).swap = pyTupleCmp b a := by
  intro a
  induction a with
  | nil => intro b; cases b <;> simp [pyTupleCmp, Ordering.swap]
  | cons x xs ih =>
    intro b
    cases b with
    | nil => simp [pyTupleCmp, Ordering.swap]
    | cons y ys =>
      simp only [pyTupleCmp]
      by_cases h1 : x < y
      · have h2 : ¬ y < x := by omega
        simp [if_pos h1, if_neg h2, Ordering.swap]
      · by_cases h2 : y < x
        · simp [if_neg h1, if_pos h2, Ordering.swap]
        · simp only [if_neg h1, if_neg h2]
          exact ih ys

theorem pyTupleCmp_gt_iff (a b : List Nat) :
    pyTupleCmp a b = .gt ↔ List.Lex (· < ·) b a := by
  rw [← pyTupleCmp_lt_iff b a, ← pyTupleCmp_swap a b]
  cases pyTupleCmp a b <;> simp [Ordering.swap]

/-- C1 (corrected claim): for every version comparison recognised by the
analyzer (a tuple literal of 1 to 3 integers under any of the six operators),
the outcome is known and equals standard lexicographic tuple comparison of the
full current-version tuple against the literal, with no truncation: a tuple
whose strict prefix equals the other tuple compares as the longer one, and
equality requires equal arities. -/
theorem c1_version_comparison_amended (cfg : Config) (op : CmpOp) (lit : List Nat)
    (h1 : 1 ≤ lit.length) (h2 : lit.length ≤ 3) :
    ∃ b, conditionValue cfg (.verCmp op lit) = some b ∧
      (b = true ↔ verCmpProp op cfg.versionInfo lit) := by
  refine ⟨applyCmpOp op (pyTupleCmp cfg.versionInfo lit), ?_, ?_⟩
  · simp [conditionValue, h1, h2]
  · have hlt := pyTupleCmp_lt_iff cfg.versionInfo lit
    have hgt := pyTupleCmp_gt_iff cfg.versionInfo lit
    have heq := pyTupleCmp_eq_iff cfg.versionInfo lit
    cases op <;> cases h : pyTupleCmp cfg.versionInfo lit <;>
      rw [h] at hlt hgt heq <;> simp_all [applyCmpOp, verCmpProp] <;> decide

/-- Witness for c1_version_comparison_amended at current version (3, 9, 0)
and the test `sys.version_info >= (3, 9)`. -/
theorem c1_version_comparison_amended_witness :
    ∃ b, conditionValue ⟨[3, 9, 0]⟩ (.verCmp .ge [3, 9]) = some b ∧
      (b = true ↔ verCmpProp .ge [3, 9, 0] [3, 9]) :=
  c1_version_comparison_amended ⟨[3, 9, 0]⟩ .ge [3, 9] (by decide) (by decide)

/-- C1 counterexample: with current version (3, 9, 0), the analyzer resolves
the test `sys.version_info == (3, 9)` definitely-false (Python tuple equality
compares arities), while the claim's truncated lexicographic comparison calls
it definitely-true. -/
theorem c1_counterexample :
    conditionValue ⟨[3, 9, 0]⟩ (.verCmp .eq [3, 9]) = some false ∧
    truncVerCmpProp .eq [3, 9, 0] [3, 9] := by
  constructor
  · decide
  · simp only [truncVerCmpProp, verCmpProp]
    decide

/-- C6: negation flips a known operand and leaves unknown unchanged; a
conjunction or disjunction with an unknown operand is unknown as a whole (in
particular definitely-false and unknown gives unknown); when both operands are
known the outcome is the ordinary boolean combination; an expression outside
the two recognised comparison families is unknown. -/
theorem c6_boolean_composition (cfg : Config) (a b : PyExpr) :
    (conditionValue cfg (.notE a) = (conditionValue cfg a).map (fun v => !v)) ∧
    ((conditionValue cfg a = none ∨ conditionValue cfg b = none) →
      conditionValue cfg (.andE a b) = none ∧ conditionValue cfg (.orE a b) = none) ∧
    (∀ x y, conditionValue cfg a = some x → conditionValue cfg b = some y →
      conditionValue cfg (.andE a b) = some (x && y) ∧
      conditionValue cfg (.orE a b) = some (x || y)) ∧
    conditionValue cfg .other = none := by
  refine ⟨?_, ?_, ?_, rfl⟩
  · cases h : conditionValue cfg a <;> simp [conditionValue, h]
  · rintro (h | h) <;>
      cases hl : conditionValue cfg a <;>
      cases hr : conditionValue cfg b <;>
      simp_all [conditionValue]
  · intro x y hx hy
    constructor <;> simp [conditionValue, hx, hy]

/-- Witness for c6_boolean_composition: with current version (3, 9, 0) the
left operand `sys.version_info >= (4,)` is definitely-false and the right is
unknown; both the conjunction and the disjunction come out unknown. -/
theorem c6_boolean_composition_witness :
    conditionValue ⟨[3, 9, 0]⟩ (.andE (.verCmp .ge [4]) .other) = none ∧
    conditionValue ⟨[3, 9, 0]⟩ (.orE (.verCmp .ge [4]) .other) = none :=
  (c6_boolean_composition ⟨[3, 9, 0]⟩ (.verCmp .ge [4]) .other).2.1 (Or.inr rfl)

/-! ## Reachability marking (UnreachableProvider)

The provider stores marks in a metadata side table keyed by node identity; the
model carries node identities as natural numbers and the table as a finite set
of marked identities.  Expression nodes carry no identity: no later pass ever
reads the unreachability metadata of an expression. -/

mutual
/-- A statement of the stub tree as seen by the reachability pass: a
declaration-like leaf carrying its node identity, or a conditional. -/
inductive PyStmt where
  | decl (id : Nat)
  | ifStmt (i : PyIf)
/-- A sequence of statements (a suite or indented body). -/
inductive PyStmts where
  | nil
  | cons (s : PyStmt) (rest : PyStmts)
/-- A `cst.If` node: identity, test, then-body and orelse chain. -/
inductive PyIf where
  | mk (id : Nat) (test : PyExpr) (body : PyStmts) (orelse : PyOrelse)
/-- The orelse of a `cst.If`: nothing, an elif (another `cst.If`), or a
trailing `cst.Else` with its identity and body. -/
inductive PyOrelse where
  | noneO
  | elifO (i : PyIf)
  | elseO (id : Nat) (body : PyStmts)
end

mutual
/-- All node identities in a statement subtree. -/
def stmtIds : PyStmt → List Nat
  | .decl i => [i]
  | .ifStmt i => ifIds i
/-- All node identities in a statement sequence. -/
def stmtsIds : PyStmts → List Nat
  | .nil => []
  | .cons s rest => stmtIds s ++ stmtsIds rest
/-- All node identities in an `If` subtree. -/
def ifIds : PyIf → List Nat
  | .mk id _ body orelse => id :: (stmtsIds body ++ orelseIds orelse)
/-- All node identities in an orelse subtree. -/
def orelseIds : PyOrelse → List Nat
  | .noneO => []
  | .elifO i => ifIds i
  | .elseO id body => id :: stmtsIds body
end

mutual
/-- Identities of the `If` statements inside a statement subtree (the nodes
whose presence in the mark table short-circuits `visit_If`). -/
def stmtIfIds : PyStmt → List Nat
  | .decl _ => []
  | .ifStmt i => ifIfIds i
/-- Identities of the `If` statements inside a statement sequence. -/
def stmtsIfIds : PyStmts → List Nat
  | .nil => []
  | .cons s rest => stmtIfIds s ++ stmtsIfIds rest
/-- Identities of the `If` statements inside an `If` subtree. -/
def ifIfIds : PyIf → List Nat
  | .mk id _ body orelse => id :: (stmtsIfIds body ++ orelseIfIds orelse)
/-- Identities of the `If` statements inside an orelse subtree. -/
def orelseIfIds : PyOrelse → List Nat
  | .noneO => []
  | .elifO i => ifIfIds i
  | .elseO _ body => stmtsIfIds body
end

/-- The `UnreachableProvider.mark_unreachable` method applied to a branch node
with identity `id` and body `body`: it sets the metadata on the node itself
and then visits the body with `SetMetadataVisitor`, whose `on_leave` marks
every node of the body subtree. -/
def mark_unreachable (id : Nat) (body : PyStmts) : Finset Nat :=
  insert id (stmtsIds body).toFinset

/-- The loop of `visit_If` in the definitely-true case: it walks the orelse
chain, applying `mark_unreachable` to each subsequent `If` and to the final
`Else`, stopping after the `Else`. -/
def markSubsequent : PyOrelse → Finset Nat
  | .noneO => ∅
  | .elifO (.mk id _ body o) => mark_unreachable id body ∪ markSubsequent o
  | .elseO id body => mark_unreachable id body

/-- The `UnreachableProvider.visit_If` method: if the node already carries the
unreachable mark, return without reading the condition metadata; otherwise
read the `ConditionProvider` value of the test; unknown changes nothing (a
warning is logged); definitely-true marks every subsequent branch of the
chain; definitely-false applies `mark_unreachable` to the node itself. -/
def visit_If (cfg : Config) (mks : Finset Nat) : PyIf → Finset Nat
  | .mk id test body orelse =>
    if id ∈ mks then mks
    else
      match conditionValue cfg test with
      | none => mks
      | some true => mks ∪ markSubsequent orelse
      | some false => mks ∪ mark_unreachable id body

mutual
/-- Depth-first traversal of the reachability pass over one statement. -/
def visitStmt (cfg : Config) (mks : Finset Nat) : PyStmt → Finset Nat
  | .decl _ => mks
  | .ifStmt i => visitIf cfg mks i
/-- Depth-first traversal over a statement sequence. -/
def visitStmts (cfg : Config) (mks : Finset Nat) : PyStmts → Finset Nat
  | .nil => mks
  | .cons s rest => visitStmts cfg (visitStmt cfg mks s) rest
/-- Traversal at an `If` node: `visit_If` runs on entry (pre-order), then the
children are visited — the body, then the orelse chain (so `visit_If` also
runs on each elif of the chain, after the head has been handled). -/
def visitIf (cfg : Config) (mks : Finset Nat) : PyIf → Finset Nat
  | .mk id test body orelse =>
    visitOrelse cfg
      (visitStmts cfg (visit_If cfg mks (.mk id test body orelse)) body) orelse
/-- Traversal over an orelse chain. -/
def visitOrelse (cfg : Config) (mks : Finset Nat) : PyOrelse → Finset Nat
  | .noneO => mks
  | .elifO i => visitIf cfg mks i
  | .elseO _ body => visitStmts cfg mks body
end

mutual
/-- Replaces the test of every conditional (as a function of its identity)
inside a statement; used to state that certain tests are never inspected. -/
def substStmt (f : Nat → PyExpr) : PyStmt → PyStmt
  | .decl i => .decl i
  | .ifStmt i => .ifStmt (substIf f i)
/-- Test replacement over a statement sequence. -/
def substStmts (f : Nat → PyExpr) : PyStmts → PyStmts
  | .nil => .nil
  | .cons s rest => .cons (substStmt f s) (substStmts f rest)
/-- Test replacement at an `If` node. -/
def substIf (f : Nat → PyExpr) : PyIf → PyIf
  | .mk id _ body orelse => .mk id (f id) (substStmts f body) (substOrelse f orelse)
/-- Test replacement over an orelse chain. -/
def substOrelse (f : Nat → PyExpr) : PyOrelse → PyOrelse
  | .noneO => .noneO
  | .elifO i => .elifO (substIf f i)
  | .elseO id body => .elseO id (substStmts f body)
end

mutual
theorem substStmt_ids (f : Nat → PyExpr) :
    (s : PyStmt) → stmtIds (substStmt f s) = stmtIds s
  | .decl _ => rfl
  | .ifStmt i => by simp only [substStmt, stmtIds, substIf_ids f i]
theorem substStmts_ids (f : Nat → PyExpr) :
    (s : PyStmts) → stmtsIds (substStmts f s) = stmtsIds s
  | .nil => rfl
  | .cons s rest => by
    simp only [substStmts, stmtsIds, substStmt_ids f s, substStmts_ids f rest]
theorem substIf_ids (f : Nat → PyExpr) :
    (i : PyIf) → ifIds (substIf f i) = ifIds i
  | .mk _ _ body o => by
    simp only [substIf, ifIds, substStmts_ids f body, substOrelse_ids f o]
theorem substOrelse_ids (f : Nat → PyExpr) :
    (o : PyOrelse) → orelseIds (substOrelse f o) = orelseIds o
  | .noneO => rfl
  | .elifO i => by simp only [substOrelse, orelseIds, substIf_ids f i]
  | .elseO _ body => by simp only [substOrelse, orelseIds, substStmts_ids f body]
end

mutual
theorem substStmt_ifIds (f : Nat → PyExpr) :
    (s : PyStmt) → stmtIfIds (substStmt f s) = stmtIfIds s
  | .decl _ => rfl
  | .ifStmt i => by simp only [substStmt, stmtIfIds, substIf_ifIds f i]
theorem substStmts_ifIds (f : Nat → PyExpr) :
    (s : PyStmts) → stmtsIfIds (substStmts f s) = stmtsIfIds s
  | .nil => rfl
  | .cons s rest => by
    simp only [substStmts, stmtsIfIds, substStmt_ifIds f s, substStmts_ifIds f rest]
theorem substIf_ifIds (f : Nat → PyExpr) :
    (i : PyIf) → ifIfIds (substIf f i) = ifIfIds i
  | .mk _ _ body o => by
    simp only [substIf, ifIfIds, substStmts_ifIds f body, substOrelse_ifIds f o]
theorem substOrelse_ifIds (f : Nat → PyExpr) :
    (o : PyOrelse) → orelseIfIds (substOrelse f o) = orelseIfIds o
  | .noneO => rfl
  | .elifO i => by simp only [substOrelse, orelseIfIds, substIf_ifIds f i]
  | .elseO _ body => by simp only [substOrelse, orelseIfIds, substStmts_ifIds f body]
end

theorem markSubsequent_subst (f : Nat → PyExpr) :
    (o : PyOrelse) → markSubsequent (substOrelse f o) = markSubsequent o
  | .noneO => rfl
  | .elifO (.mk id t body o2) => by
    simp only [substOrelse, substIf, markSubsequent, mark_unreachable,
      substStmts_ids f body, markSubsequent_subst f o2]
  | .elseO id body => by
    simp only [substOrelse, markSubsequent, mark_unreachable, substStmts_ids f body]

theorem markSubsequent_eq_ids :
    (o : PyOrelse) → markSubsequent o = (orelseIds o).toFinset
  | .noneO => rfl
  | .elifO (.mk id t body o2) => by
    simp only [markSubsequent, orelseIds, ifIds, mark_unreachable,
      markSubsequent_eq_ids o2, List.toFinset_cons, List.toFinset_append]
    rw [Finset.insert_union]
  | .elseO id body => by
    simp only [markSubsequent, orelseIds, mark_unreachable, List.toFinset_cons]

mutual
theorem stmtIfIds_subset :
    (s : PyStmt) → ∀ j ∈ stmtIfIds s, j ∈ stmtIds s
  | .decl _ => by intro j hj; cases hj
  | .ifStmt i => by
    intro j hj
    exact ifIfIds_subset i j hj
theorem stmtsIfIds_subset :
    (s : PyStmts) → ∀ j ∈ stmtsIfIds s, j ∈ stmtsIds s
  | .nil => by intro j hj; cases hj
  | .cons s rest => by
    intro j hj
    simp only [stmtsIfIds, List.mem_append] at hj
    simp only [stmtsIds, List.mem_append]
    rcases hj with hj | hj
    · exact Or.inl (stmtIfIds_subset s j hj)
    · exact Or.inr (stmtsIfIds_subset rest j hj)
theorem ifIfIds_subset :
    (i : PyIf) → ∀ j ∈ ifIfIds i, j ∈ ifIds i
  | .mk id t body o => by
    intro j hj
    simp only [ifIfIds, List.mem_cons, List.mem_append] at hj
    simp only [ifIds, List.mem_cons, List.mem_append]
    rcases hj with hj | hj | hj
    · exact Or.inl hj
    · exact Or.inr (Or.inl (stmtsIfIds_subset body j hj))
    · exact Or.inr (Or.inr (orelseIfIds_subset o j hj))
theorem orelseIfIds_subset :
    (o : PyOrelse) → ∀ j ∈ orelseIfIds o, j ∈ orelseIds o
  | .noneO => by intro j hj; cases hj
  | .elifO i => by
    intro j hj
    exact ifIfIds_subset i j hj
  | .elseO id body => by
    intro j hj
    simp only [orelseIds, List.mem_cons]
    exact Or.inr (stmtsIfIds_subset body j hj)
end

theorem visit_If_mono (cfg : Config) (mks : Finset Nat) (i : PyIf) :
    mks ⊆ visit_If cfg mks i := by
  match i with
  | .mk id test body orelse =>
    simp only [visit_If]
    by_cases h : id ∈ mks
    · simp [h]
    · simp only [if_neg h]
      cases conditionValue cfg test with
      | none => exact Finset.Subset.refl _
      | some b =>
        cases b
        · exact Finset.subset_union_left
        · exact Finset.subset_union_left

mutual
theorem visitStmt_mono (cfg : Config) (mks : Finset Nat) :
    (s : PyStmt) → mks ⊆ visitStmt cfg mks s
  | .decl _ => Finset.Subset.refl _
  | .ifStmt i => visitIf_mono cfg mks i
theorem visitStmts_mono (cfg : Config) (mks : Finset Nat) :
    (s : PyStmts) → mks ⊆ visitStmts cfg mks s
  | .nil => Finset.Subset.refl _
  | .cons s rest =>
    Finset.Subset.trans (visitStmt_mono cfg mks s)
      (visitStmts_mono cfg (visitStmt cfg mks s) rest)
theorem visitIf_mono (cfg : Config) (mks : Finset Nat) :
    (i : PyIf) → mks ⊆ visitIf cfg mks i
  | .mk id test body orelse =>
    Finset.Subset.trans (visit_If_mono cfg mks (.mk id test body orelse))
      (Finset.Subset.trans
        (visitStmts_mono cfg (visit_If cfg mks (.mk id test body orelse)) body)
        (visitOrelse_mono cfg
          (visitStmts cfg (visit_If cfg mks (.mk id test body orelse)) body) orelse))
theorem visitOrelse_mono (cfg : Config) (mks : Finset Nat) :
    (o : PyOrelse) → mks ⊆ visitOrelse cfg mks o
  | .noneO => Finset.Subset.refl _
  | .elifO i => visitIf_mono cfg mks i
  | .elseO _ body => visitStmts_mono cfg mks body
end

mutual
theorem visitStmt_marked (cfg : Config) (mks : Finset Nat) :
    (s : PyStmt) → (∀ j ∈ stmtIfIds s, j ∈ mks) → visitStmt cfg mks s = mks
  | .decl _, _ => rfl
  | .ifStmt i, h => visitIf_marked cfg mks i h
theorem visitStmts_marked (cfg : Config) (mks : Finset Nat) :
    (s : PyStmts) → (∀ j ∈ stmtsIfIds s, j ∈ mks) → visitStmts cfg mks s = mks
  | .nil, _ => rfl
  | .cons s rest, h => by
    have hs : visitStmt cfg mks s = mks :=
      visitStmt_marked cfg mks s fun j hj =>
        h j (by simp only [stmtsIfIds, List.mem_append]; exact Or.inl hj)
    have hr : visitStmts cfg mks rest = mks :=
      visitStmts_marked cfg mks rest fun j hj =>
        h j (by simp only [stmtsIfIds, List.mem_append]; exact Or.inr hj)
    calc visitStmts cfg mks (.cons s rest)
        = visitStmts cfg (visitStmt cfg mks s) rest := rfl
      _ = visitStmts cfg mks rest := by rw [hs]
      _ = mks := hr
theorem visitIf_marked (cfg : Config) (mks : Finset Nat) :
    (i : PyIf) → (∀ j ∈ ifIfIds i, j ∈ mks) → visitIf cfg mks i = mks
  | .mk id test body orelse, h => by
    have hid : id ∈ mks := h id (by simp [ifIfIds])
    have htop : visit_If cfg mks (.mk id test body orelse) = mks := by
      simp [visit_If, hid]
    have hbody : visitStmts cfg mks body = mks :=
      visitStmts_marked cfg mks body fun j hj =>
        h j (by
          simp only [ifIfIds, List.mem_cons, List.mem_append]
          exact Or.inr (Or.inl hj))
    have ho : visitOrelse cfg mks orelse = mks :=
      visitOrelse_marked cfg mks orelse fun j hj =>
        h j (by
          simp only [ifIfIds, List.mem_cons, List.mem_append]
          exact Or.inr (Or.inr hj))
    calc visitIf cfg mks (.mk id test body orelse)
        = visitOrelse cfg
            (visitStmts cfg (visit_If cfg mks (.mk id test body orelse)) body)
            orelse := rfl
      _ = mks := by rw [htop, hbody, ho]
theorem visitOrelse_marked (cfg : Config) (mks : Finset Nat) :
    (o : PyOrelse) → (∀ j ∈ orelseIfIds o, j ∈ mks) → visitOrelse cfg mks o = mks
  | .noneO, _ => rfl
  | .elifO i, h => visitIf_marked cfg mks i h
  | .elseO _ body, h => visitStmts_marked cfg mks body h
end

/-- C5: for a conditional statement not already marked, a definitely-false
test marks the conditional node and every node inside its then-body, and no
node of the orelse chain is marked by this rule; a definitely-true test marks
exactly every subsequent branch of the chain (each elif, the trailing else,
and every node inside them), and the marks of a full traversal do not depend
on the tests of those subsequent branches — their conditions are never
inspected. -/
theorem c5_if_propagation (cfg : Config) (mks : Finset Nat) (id : Nat)
    (test : PyExpr) (body : PyStmts) (orelse : PyOrelse)
    (hnodup : (ifIds (.mk id test body orelse)).Nodup)
    (hnew : id ∉ mks) :
    (conditionValue cfg test = some false →
      visit_If cfg mks (.mk id test body orelse)
          = mks ∪ insert id (stmtsIds body).toFinset ∧
      ∀ j ∈ orelseIds orelse, j ∉ mks →
        j ∉ visit_If cfg mks (.mk id test body orelse)) ∧
    (conditionValue cfg test = some true →
      visit_If cfg mks (.mk id test body orelse)
          = mks ∪ (orelseIds orelse).toFinset ∧
      ∀ f, visitIf cfg mks (.mk id test body (substOrelse f orelse))
          = visitIf cfg mks (.mk id test body orelse)) := by
  simp only [ifIds, List.nodup_cons, List.nodup_append] at hnodup
  have hid1 : id ∉ stmtsIds body ++ orelseIds orelse := hnodup.1
  have hdisj : (stmtsIds body).Disjoint (orelseIds orelse) := hnodup.2.2.2
  constructor
  · intro hcond
    constructor
    · simp [visit_If, hnew, hcond, mark_unreachable]
    · intro j hj hjm hmem
      simp only [visit_If, if_neg hnew, hcond, mark_unreachable,
        Finset.mem_union, Finset.mem_insert, List.mem_toFinset] at hmem
      rcases hmem with h | h | h
      · exact hjm h
      · subst h; exact hid1 (List.mem_append_right _ hj)
      · exact hdisj h hj
  · intro hcond
    have heq : visit_If cfg mks (.mk id test body orelse)
        = mks ∪ markSubsequent orelse := by
      simp [visit_If, hnew, hcond]
    constructor
    · rw [heq, markSubsequent_eq_ids]
    · intro f
      have heq2 : visit_If cfg mks (.mk id test body (substOrelse f orelse))
          = mks ∪ markSubsequent orelse := by
        simp [visit_If, hnew, hcond, markSubsequent_subst]
      have hmarked : ∀ m2 : Finset Nat,
          mks ∪ markSubsequent orelse ⊆ m2 →
          ∀ o2 : PyOrelse, orelseIfIds o2 = orelseIfIds orelse →
          visitOrelse cfg m2 o2 = m2 := by
        intro m2 hsub o2 hids
        refine visitOrelse_marked cfg m2 o2 ?_
        intro j hj
        rw [hids] at hj
        have hj2 : j ∈ orelseIds orelse := orelseIfIds_subset orelse j hj
        have hj3 : j ∈ markSubsequent orelse := by
          rw [markSubsequent_eq_ids]; exact List.mem_toFinset.mpr hj2
        exact hsub (Finset.mem_union.mpr (Or.inr hj3))
      calc visitIf cfg mks (.mk id test body (substOrelse f orelse))
          = visitOrelse cfg
              (visitStmts cfg (mks ∪ markSubsequent orelse) body)
              (substOrelse f orelse) := by
            simp only [visitIf, heq2]
        _ = visitStmts cfg (mks ∪ markSubsequent orelse) body :=
            hmarked _ (visitStmts_mono cfg _ body) _ (substOrelse_ifIds f orelse)
        _ = visitOrelse cfg
              (visitStmts cfg (mks ∪ markSubsequent orelse) body) orelse := by
            rw [hmarked _ (visitStmts_mono cfg _ body) orelse rfl]
        _ = visitIf cfg mks (.mk id test body orelse) := by
            simp only [visitIf, heq]

/-- Witness for c5_if_propagation: with current version (3, 9, 0) and the
definitely-false test `sys.version_info >= (4,)`, the conditional node and
its then-body are marked. -/
theorem c5_if_propagation_witness :
    visit_If ⟨[3, 9, 0]⟩ ∅
        (.mk 0 (.verCmp .ge [4]) (.cons (.decl 1) .nil)
          (.elseO 2 (.cons (.decl 3) .nil)))
      = ∅ ∪ insert 0 (stmtsIds (.cons (.decl 1) .nil)).toFinset :=
  ((c5_if_propagation ⟨[3, 9, 0]⟩ ∅ 0 (.verCmp .ge [4]) (.cons (.decl 1) .nil)
      (.elseO 2 (.cons (.decl 3) .nil)) (by decide) (by decide)).1 (by decide)).1

/-! ## Quoting engine (docquote_str)

Python strings are modelled as lists of characters.  The Python string
builtins the function calls are modelled for the ASCII fragment: this covers
every character class that `docquote_str` branches on (newline, backslash,
double quote, whitespace, printability). -/

/-- Models Python `str.isprintable` on one ASCII character: the printable
ASCII characters are exactly 0x20 to 0x7e. -/
def pyPrintableChar (c : Char) : Bool :=
  0x20 ≤ c.toNat && c.toNat ≤ 0x7e

/-- Models Python `str.isprintable` (true for the empty string). -/
def pyIsPrintable (s : List Char) : Bool :=
  s.all pyPrintableChar

/-- Models Python `str.strip` whitespace membership for the ASCII fragment:
space, tab, newline, carriage return, vertical tab, form feed. -/
def pySpaceChar (c : Char) : Bool :=
  c = ' ' || c = '\t' || c = '\n' || c = '\x0d' || c = '\x0b' || c = '\x0c'

/-- Models Python `str.splitlines(keepends=True)` restricted to the newline
separator; the quoting code only reaches this after ruling out every
non-printable character other than the newline, so no other separator can
occur. -/
def splitlinesKE : List Char → List (List Char)
  | [] => []
  | c :: rest =>
    if c = '\n' then [c] :: splitlinesKE rest
    else
      match splitlinesKE rest with
      | [] => [[c]]
      | l :: ls => (c :: l) :: ls

/-- Models Python `textwrap.indent(text, prefix)` with its default predicate:
each line (split keeping ends) receives the prefix exactly when it contains a
non-whitespace character — lines consisting solely of whitespace are left
unchanged. -/
def textwrapIndent (text pfx : List Char) : List Char :=
  ((splitlinesKE text).map
    (fun line => if line.any (fun c => !pySpaceChar c) then pfx ++ line else line)).flatten

/-- Helper for Python `str.replace`: scans left to right; `skip` counts
characters still owned by a previous replacement. -/
def replaceAllGo (pat rep : List Char) : Nat → List Char → List Char
  | _, [] => []
  | skip + 1, _ :: rest => replaceAllGo pat rep skip rest
  | 0, c :: rest =>
    if !pat.isEmpty && pat.isPrefixOf (c :: rest) then
      rep ++ replaceAllGo pat rep (pat.length - 1) rest
    else c :: replaceAllGo pat rep 0 rest

/-- Models Python `str.replace(pat, rep)`: replaces every non-overlapping
occurrence, left to right (the uses in `docquote_str` always pass a non-empty
pattern). -/
def replaceAll (pat rep s : List Char) : List Char :=
  replaceAllGo pat rep 0 s

/-- Hexadecimal digit for the debug-escape fallback. -/
def hexDigit (n : Nat) : Char :=
  if n < 10 then Char.ofNat (48 + n) else Char.ofNat (87 + n)

/-- Models CPython `repr` of one ASCII character inside a string literal
quoted with `q`. -/
def pyReprChar (q c : Char) : List Char :=
  if c = '\\' then ['\\', '\\']
  else if c = q then ['\\', q]
  else if c = '\n' then ['\\', 'n']
  else if c = '\x0d' then ['\\', 'r']
  else if c = '\t' then ['\\', 't']
  else if pyPrintableChar c then [c]
  else ['\\', 'x', hexDigit (c.toNat / 16), hexDigit (c.toNat % 16)]

/-- Models CPython `repr` of an ASCII string: single quotes unless the text
contains a single quote and no double quote. -/
def pyRepr (s : List Char) : List Char :=
  let q : Char := if s.contains '\'' && !s.contains '"' then '"' else '\''
  q :: (s.map (pyReprChar q)).flatten ++ [q]

/-- The `docquote_str` function: formats recovered documentation text as a
safely quoted literal.  Non-printable content (ignoring newlines) falls back
to the debug representation; a backslash selects raw mode; multi-line text is
reindented by `textwrap.indent` and wrapped in newlines; single-line text
ending in a double quote gets a trailing space (raw) or an escaped quote;
any triple-quote sequence is neutralized; finally the raw marker and the
triple-quote delimiters are attached. -/
def docquote_str (doc : List Char) (indent : List Char) : List Char :=
  if !pyIsPrintable (doc.filter (fun c => c ≠ '\n')) then pyRepr doc
  else
    let raw := doc.contains '\\'
    let doc1 :=
      if doc.contains '\n' then
        '\n' :: (textwrapIndent doc indent ++ '\n' :: indent)
      else if doc.getLast? = some '"' then
        if raw then doc ++ [' '] else doc.dropLast ++ ['\\', '"']
      else doc
    let doc2 :=
      if raw then replaceAll ['"', '"', '"'] ['\'', '\'', '\''] doc1
      else replaceAll ['"', '"', '"'] ['\\', '"', '\\', '"', '\\', '"'] doc1
    (if raw then ['r', '"', '"', '"'] else ['"', '"', '"']) ++ doc2 ++ ['"', '"', '"']

/-- The C8 claim's multi-line shape, written from its words: every line of the
text, empty and whitespace-only lines included, prefixed by the indent, the
body wrapped with a leading newline and a trailing newline plus indent before
the closing delimiter. -/
def quoteClaimC8 (doc indent : List Char) : List Char :=
  ['"', '"', '"'] ++
    ('\n' :: (((splitlinesKE doc).map (fun l => indent ++ l)).flatten ++ '\n' :: indent))
      ++ ['"', '"', '"']

theorem splitlinesKE_flatten : ∀ s : List Char, (splitlinesKE s).flatten = s
  | [] => rfl
  | c :: rest => by
    have ih := splitlinesKE_flatten rest
    by_cases hc : c = '\n'
    · simp only [splitlinesKE, if_pos hc, List.flatten_cons]
      rw [ih]
      rfl
    · simp only [splitlinesKE, if_neg hc]
      cases h : splitlinesKE rest with
      | nil =>
        rw [h] at ih
        simp only [List.flatten_nil] at ih
        simp [← ih, List.flatten]
      | cons l ls =>
        rw [h] at ih
        simp only [List.flatten_cons] at ih ⊢
        rw [List.cons_append, ih]

theorem mem_textwrapIndent (text pfx : List Char) (c : Char) :
    c ∈ textwrapIndent text pfx → c ∈ text ∨ c ∈ pfx := by
  intro h
  simp only [textwrapIndent, List.mem_flatten, List.mem_map] at h
  obtain ⟨l', ⟨line, hline, hfl⟩, hcl⟩ := h
  have hlinemem : c ∈ line → c ∈ text := by
    intro hm
    have hj : c ∈ (splitlinesKE text).flatten := List.mem_flatten.mpr ⟨line, hline, hm⟩
    rwa [splitlinesKE_flatten] at hj
  subst hfl
  by_cases hp : line.any (fun x => !pySpaceChar x)
  · rw [if_pos hp] at hcl
    rcases List.mem_append.mp hcl with h | h
    · exact Or.inr h
    · exact Or.inl (hlinemem h)
  · rw [if_neg hp] at hcl
    exact Or.inl (hlinemem hcl)

theorem replaceAllGo_id (pat rep : List Char) (hq : pat.head? = some '"') :
    ∀ s : List Char, (∀ c ∈ s, c ≠ '"') → replaceAllGo pat rep 0 s = s
  | [], _ => rfl
  | c :: rest, h => by
    have hc : c ≠ '"' := h c (List.mem_cons_self c rest)
    have hpre : pat.isPrefixOf (c :: rest) = false := by
      cases pat with
      | nil => cases hq
      | cons p ps =>
        have hp : p = '"' := by
          simp only [List.head?] at hq
          injection hq
        subst hp
        simp only [List.isPrefixOf, Bool.and_eq_false_iff]
        left
        simp only [beq_eq_false_iff_ne, ne_eq]
        intro hh
        exact hc hh.symm
    simp only [replaceAllGo, hpre, Bool.and_false, Bool.false_eq_true, if_false]
    rw [replaceAllGo_id pat rep hq rest (fun x hx => h x (List.mem_cons_of_mem c hx))]

/-- C8 (corrected claim): for text containing a newline, printable apart from
newlines, and free of double quotes (with a double-quote-free indent, so
delimiter neutralization is a no-op), `docquote_str` prefixes exactly the
lines containing a non-whitespace character with the indent, leaves
whitespace-only lines unchanged, and wraps the body with a leading newline
and a trailing newline plus indent before the closing delimiter, with the raw
marker when the text contains a backslash. -/
theorem c8_multiline_quote_amended (doc indent : List Char)
    (hn : doc.contains '\n' = true)
    (hp : pyIsPrintable (doc.filter (fun c => c ≠ '\n')) = true)
    (hd : ∀ c ∈ doc, c ≠ '"') (hdi : ∀ c ∈ indent, c ≠ '"') :
    docquote_str doc indent =
      (if doc.contains '\\' then ['r', '"', '"', '"'] else ['"', '"', '"']) ++
        ('\n' :: (((splitlinesKE doc).map
            (fun l => if l.all pySpaceChar then l else indent ++ l)).flatten
          ++ '\n' :: indent))
        ++ ['"', '"', '"'] := by
  have hbody : ∀ c ∈ '\n' :: (textwrapIndent doc indent ++ '\n' :: indent), c ≠ '"' := by
    intro c hc
    rcases List.mem_cons.mp hc with rfl | hc
    · decide
    rcases List.mem_append.mp hc with hc | hc
    · rcases mem_textwrapIndent doc indent c hc with h | h
      · exact hd c h
      · exact hdi c h
    · rcases List.mem_cons.mp hc with rfl | hc
      · decide
      · exact hdi c hc
  have hrepl : ∀ rep, replaceAll ['"', '"', '"'] rep
      ('\n' :: (textwrapIndent doc indent ++ '\n' :: indent))
      = '\n' :: (textwrapIndent doc indent ++ '\n' :: indent) :=
    fun rep => replaceAllGo_id ['"', '"', '"'] rep rfl _ hbody
  have hao : ∀ l : List Char, (l.any fun x => !pySpaceChar x) = !l.all pySpaceChar := by
    intro l
    induction l with
    | nil => rfl
    | cons a t ih => simp [List.any_cons, List.all_cons, ih, Bool.not_and]
  have hmap : textwrapIndent doc indent
      = ((splitlinesKE doc).map
          (fun l => if l.all pySpaceChar then l else indent ++ l)).flatten := by
    unfold textwrapIndent
    congr 1
    apply List.map_congr_left
    intro l _
    rw [hao l]
    cases h : l.all pySpaceChar <;> simp [h]
  have hq1 : docquote_str doc indent =
      (if doc.contains '\\' then ['r', '"', '"', '"'] else ['"', '"', '"']) ++
        (if doc.contains '\\' then
            replaceAll ['"', '"', '"'] ['\'', '\'', '\'']
              ('\n' :: (textwrapIndent doc indent ++ '\n' :: indent))
          else
            replaceAll ['"', '"', '"'] ['\\', '"', '\\', '"', '\\', '"']
              ('\n' :: (textwrapIndent doc indent ++ '\n' :: indent)))
        ++ ['"', '"', '"'] := by
    simp only [docquote_str, hp, hn, Bool.not_true, Bool.false_eq_true, if_false, if_true]
  rw [hq1, hrepl, hrepl, ite_self, hmap]

/-- Witness for c8_multiline_quote_amended at the text "a\n b" with a
one-space indent. -/
theorem c8_multiline_quote_amended_witness :
    docquote_str ['a', '\n', ' ', 'b'] [' '] =
      (if List.contains ['a', '\n', ' ', 'b'] '\\' then ['r', '"', '"', '"'] else ['"', '"', '"']) ++
        ('\n' :: (((splitlinesKE ['a', '\n', ' ', 'b']).map
            (fun l => if l.all pySpaceChar then l else [' '] ++ l)).flatten
          ++ '\n' :: [' ']))
        ++ ['"', '"', '"'] :=
  c8_multiline_quote_amended ['a', '\n', ' ', 'b'] [' ']
    (by decide) (by decide) (by decide) (by decide)

/-- C8 counterexample: for the text "a\n\nb" with a two-space indent, the
empty middle line is not prefixed by the indent (textwrap.indent leaves
whitespace-only lines unchanged), so the produced literal differs from the
claim's every-line-prefixed shape. -/
theorem c8_counterexample :
    docquote_str ['a', '\n', '\n', 'b'] [' ', ' ']
      = ['"', '"', '"', '\n', ' ', ' ', 'a', '\n', '\n', ' ', ' ', 'b', '\n', ' ', ' ',
         '"', '"', '"'] ∧
    docquote_str ['a', '\n', '\n', 'b'] [' ', ' ']
      ≠ quoteClaimC8 ['a', '\n', '\n', 'b'] [' ', ' '] := by
  constructor <;> decide

/-! ## Python stdlib text helpers used by the transformer -/

/-- Models Python `str.expandtabs(8)`: each tab advances to the next multiple
of eight columns; newline and carriage return reset the column. -/
def expandTabsGo : Nat → List Char → List Char
  | _, [] => []
  | col, c :: rest =>
    if c = '\t' then
      let pad := 8 - col % 8
      List.replicate pad ' ' ++ expandTabsGo (col + pad) rest
    else if c = '\n' || c = '\x0d' then c :: expandTabsGo 0 rest
    else c :: expandTabsGo (col + 1) rest

/-- Models Python `str.expandtabs()` with the default tab size. -/
def pyExpandTabs (s : List Char) : List Char :=
  expandTabsGo 0 s

/-- Models Python `str.split` on the newline character: note that splitting
the empty string yields one empty field. -/
def splitOnNl : List Char → List (List Char)
  | [] => [[]]
  | c :: rest =>
    if c = '\n' then [] :: splitOnNl rest
    else
      match splitOnNl rest with
      | [] => [[c]]
      | l :: ls => (c :: l) :: ls

/-- The margin computation of `inspect.cleandoc`: the minimum indentation of
the lines (after the first) that have content; `none` plays the role of the
`sys.maxsize` sentinel. -/
def cleandocMargin : List (List Char) → Option Nat
  | [] => none
  | l :: ls =>
    let rest := cleandocMargin ls
    let stripped := l.dropWhile pySpaceChar
    if stripped.length = 0 then rest
    else
      match rest with
      | none => some (l.length - stripped.length)
      | some m => some (min m (l.length - stripped.length))

/-- Drops trailing empty lines, as the `while lines and not lines[-1]` loop
of `inspect.cleandoc` does. -/
def dropTrailingEmpty (ls : List (List Char)) : List (List Char) :=
  (ls.reverse.dropWhile List.isEmpty).reverse

/-- Joins lines with newlines, as `'\n'.join(lines)`. -/
def joinNl : List (List Char) → List Char
  | [] => []
  | [l] => l
  | l :: ls => l ++ '\n' :: joinNl ls

/-- Models Python `inspect.cleandoc`: expand tabs, split into lines, strip the
first line's leading whitespace, remove the common margin from the remaining
lines, then drop trailing and leading blank lines and re-join. -/
def pyCleandoc (doc : List Char) : List Char :=
  match splitOnNl (pyExpandTabs doc) with
  | [] => []
  | first :: rest =>
    let restD :=
      match cleandocMargin rest with
      | none => rest
      | some m => rest.map (fun l => l.drop m)
    let lines := first.dropWhile pySpaceChar :: restD
    joinNl ((dropTrailingEmpty lines).dropWhile List.isEmpty)

/-! ## Live-symbol provider model and documentation selection

The spec treats the live-symbol provider as an external collaborator exposing
capability queries (is-routine, is-data-descriptor, is-class, documentation
text, raw namespace entry).  `PyVal` models a loaded runtime value with these
capabilities; `get_obj`, `get_doc_class` and `get_doc_def` are translated
from the source against this model. -/

/-- A live Python runtime value as the engine observes it: `pyNone` is the
Python `None`, `pyStr` a text value, and `pyObj` an object carrying its
capability answers — `inspect.isroutine`, `inspect.isdatadescriptor`,
`inspect.isclass`, identity with the root type `object`, whether
`inspect.getsourcefile` returns a path (no exception), its attribute table
(for `getattr`: a missing key raises AttributeError), its own `__dict__`
table, and the entry `type(v).__dict__.get("__doc__")` (with `pyNone`
standing for both an absent key and a stored `None`, which the code treats
identically). -/
inductive PyVal where
  | pyNone
  | pyStr (s : List Char)
  | pyObj (isRoutineF isDataDescF isClassF isObjectRootF hasSourceF : Bool)
      (attrs : List (String × PyVal))
      (dict : List (String × PyVal))
      (typeDictDocF : PyVal)

/-- Capability query `inspect.isroutine` (false for None and plain text). -/
def isRoutine : PyVal → Bool
  | .pyObj r _ _ _ _ _ _ _ => r
  | _ => false

/-- Capability query `inspect.isdatadescriptor`. -/
def isDataDescriptor : PyVal → Bool
  | .pyObj _ d _ _ _ _ _ _ => d
  | _ => false

/-- Capability query `inspect.isclass`. -/
def isClass : PyVal → Bool
  | .pyObj _ _ c _ _ _ _ _ => c
  | _ => false

/-- Identity check `scope_obj is object` against the root type. -/
def isObjectRoot : PyVal → Bool
  | .pyObj _ _ _ o _ _ _ _ => o
  | _ => false

/-- Whether `inspect.getsourcefile` returns a usable path (builtins raise
TypeError, modelled as false). -/
def hasSourceFile : PyVal → Bool
  | .pyObj _ _ _ _ s _ _ _ => s
  | _ => false

/-- Models `getattr_safe(v, name)` without a default: `none` is the
AttributeError outcome (exceptions raised by the access are logged and also
surface as AttributeError).  None and plain text are modelled with no
recoverable attributes, which is all the engine's lookup paths exercise. -/
def getattrOpt : PyVal → String → Option PyVal
  | .pyObj _ _ _ _ _ attrs _ _, name => attrs.lookup name
  | _, _ => none

/-- Models `getattr_safe(v, "__doc__", None)`. -/
def getattrDoc (v : PyVal) : PyVal :=
  (getattrOpt v "__doc__").getD .pyNone

/-- Models `v.__dict__.get(name)`. -/
def dictGet : PyVal → String → Option PyVal
  | .pyObj _ _ _ _ _ _ d _, name => d.lookup name
  | _, _ => none

/-- Models `type(v).__dict__.get("__doc__")`.  For None and plain text the
runtime types `NoneType` and `str` carry an ordinary non-empty docstring,
modelled by a placeholder text. -/
def typeDictDocOf : PyVal → PyVal
  | .pyObj _ _ _ _ _ _ _ t => t
  | .pyStr _ => .pyStr ['s']
  | .pyNone => .pyStr ['N']

/-- Python truthiness: None is falsy, text is falsy when empty, objects
without special protocols are truthy. -/
def pyTruthy : PyVal → Bool
  | .pyNone => false
  | .pyStr s => !s.isEmpty
  | .pyObj _ _ _ _ _ _ _ _ => true

/-- Python `==` for the comparisons the selector performs: the right-hand
side is a docstring of the root `object` type (text or None), so text
compares by content, None equals None, and an object never equals either. -/
def pyEq : PyVal → PyVal → Bool
  | .pyNone, .pyNone => true
  | .pyStr a, .pyStr b => a == b
  | _, _ => false

/-- The `get_obj` walk over one qualified name: `scope_obj` trails one step
behind `obj`; an AttributeError anywhere makes the whole lookup fail. -/
def get_obj_go : PyVal → PyVal → List String → Option (PyVal × PyVal)
  | scope, obj, [] => some (scope, obj)
  | _, obj, p :: ps =>
    match getattrOpt obj p with
    | none => none
    | some v => get_obj_go obj v ps

/-- The `get_obj` function: resolves a qualified name against the loaded
module, returning the owning scope object and the resolved object, or `none`
when some segment is unresolvable. -/
def get_obj (mod : PyVal) (qualname : List String) : Option (PyVal × PyVal) :=
  get_obj_go .pyNone mod qualname

/-- The `get_doc_class` function: a class takes its own `__doc__`, unless
that attribute is itself a data descriptor (an unresolved property object),
which is treated as absent. -/
def get_doc_class (obj : PyVal) : PyVal :=
  let doc := getattrDoc obj
  if isDataDescriptor doc then .pyNone else doc

/-- The `get_doc_def` function, translated branch for branch: routines and
data descriptors take `__doc__` directly, except that a constructor or
allocator hook of a class other than `object` whose text equals the root
type's corresponding text is treated as absent; otherwise the raw
`__dict__` entry of the owner is consulted if it is a data descriptor; then,
for non-classes, the instance-level `__doc__` is used when the type-level
entry is absent or an unresolved descriptor.  The parameters `objInitDoc`
and `objNewDoc` are the runtime constants `object.__init__.__doc__` and
`object.__new__.__doc__`. -/
def get_doc_def (objInitDoc objNewDoc : PyVal) (scope_obj obj : PyVal)
    (name : String) : PyVal :=
  if isRoutine obj || isDataDescriptor obj then
    let doc := getattrDoc obj
    if isClass scope_obj && !isObjectRoot scope_obj then
      if name == "__init__" && pyEq doc objInitDoc then .pyNone
      else if name == "__new__" && pyEq doc objNewDoc then .pyNone
      else doc
    else doc
  else
    let fromRaw :=
      match dictGet scope_obj name with
      | some rawObj =>
        if isDataDescriptor rawObj then
          let doc := getattrDoc rawObj
          if pyTruthy doc then some doc else none
        else none
      | none => none
    match fromRaw with
    | some doc => doc
    | none =>
      if !isClass obj then
        let rawDoc := typeDictDocOf obj
        if (match rawDoc with | .pyNone => true | _ => isDataDescriptor rawDoc) then
          let doc := getattrDoc obj
          if pyTruthy doc then doc else .pyNone
        else .pyNone
      else .pyNone

/-- C9: for a function declaration named `__init__` or `__new__` whose owner
is a class other than the root type `object`, and whose symbol is a routine
or data descriptor, a recovered text byte-identical to the root type's text
for the same hook is treated as absent. -/
theorem c9_constructor_boilerplate (objInitDoc objNewDoc scope obj : PyVal)
    (s t : List Char)
    (hc : isClass scope = true) (hr : isObjectRoot scope = false)
    (hro : isRoutine obj = true ∨ isDataDescriptor obj = true) :
    (getattrDoc obj = .pyStr s → objInitDoc = .pyStr s →
      get_doc_def objInitDoc objNewDoc scope obj "__init__" = .pyNone) ∧
    (getattrDoc obj = .pyStr t → objNewDoc = .pyStr t →
      get_doc_def objInitDoc objNewDoc scope obj "__new__" = .pyNone) := by
  have hro2 : (isRoutine obj || isDataDescriptor obj) = true := by
    rcases hro with h | h <;> simp [h]
  constructor
  · intro hdoc hinit
    simp [get_doc_def, hro2, hc, hr, hdoc, hinit, pyEq]
  · intro hdoc hnew
    simp [get_doc_def, hro2, hc, hr, hdoc, hnew, pyEq]

/-- Witness for c9_constructor_boilerplate: a plain method object on a
non-root class whose text equals the root constructor text. -/
theorem c9_constructor_boilerplate_witness :
    get_doc_def (.pyStr ['I']) (.pyStr ['N'])
      (.pyObj false false true false false [] [] .pyNone)
      (.pyObj true false false false false [("__doc__", .pyStr ['I'])] [] .pyNone)
      "__init__" = .pyNone :=
  (c9_constructor_boilerplate (.pyStr ['I']) (.pyStr ['N'])
      (.pyObj false false true false false [] [] .pyNone)
      (.pyObj true false false false false [("__doc__", .pyStr ['I'])] [] .pyNone)
      ['I'] ['N'] rfl rfl (Or.inl rfl)).1 rfl rfl

/-! ## Scope resolution (get_qualname) and the transformer -/

/-- The scope chain libcst's ScopeProvider attaches to a declaration: the
module's GlobalScope, a ClassScope with its (possibly missing) name, a
FunctionScope, or a ComprehensionScope. -/
inductive PyScope where
  | globalScope
  | classScope (name : Option String) (parent : PyScope)
  | funcScope (parent : PyScope)
  | compScope (parent : PyScope)

/-- The Python exceptions that can escape the transformer's methods. -/
inductive PyExc where
  | valueError
  | typeError
  | attributeError
deriving DecidableEq, Repr

/-- The `get_qualname` function: prepends the names of the enclosing class
scopes until the global scope terminates the walk; a class scope without a
recoverable name raises ValueError, and any other scope kind (a function or
comprehension scope) raises TypeError.  Neither exception is caught by the
caller.  The qualified name is kept as its segments (the source builds a
dot-joined string and `get_obj` splits it back on the dot). -/
def get_qualname : PyScope → List String → Except PyExc (List String)
  | .globalScope, acc => .ok acc
  | .classScope name parent, acc =>
    match name with
    | none => .error .valueError
    | some s => if s = "" then .error .valueError else get_qualname parent (s :: acc)
  | .funcScope _, _ => .error .typeError
  | .compScope _, _ => .error .typeError

/-- A small statement inside a body line: a string-literal expression
statement (`Expr(SimpleString)` with its text) or anything else. -/
inductive SmallStmt where
  | exprString (s : List Char)
  | otherSmall
deriving DecidableEq, Repr

/-- A line of an indented block or module body: a `SimpleStatementLine` with
its count of leading empty lines and its small statements, or any other
(compound) line. -/
inductive BodyLine where
  | simpleLine (leading : Nat) (stmts : List SmallStmt)
  | otherLine (leading : Nat)
deriving DecidableEq, Repr

/-- The body of a class or function declaration: a single-line
`SimpleStatementSuite`, an `IndentedBlock` (with its explicit indent, when
present), or any other shape. -/
inductive DeclBody where
  | simpleSuite (stmts : List SmallStmt)
  | indentedBlock (indent : Option (List Char)) (lines : List BodyLine)
  | otherBody
deriving DecidableEq, Repr

/-- The already-documented matcher of `leave_ClassFunctionDef`: a
SimpleStatementSuite whose first statement is a string-literal expression, or
an IndentedBlock whose first line is a SimpleStatementLine starting with a
string-literal expression. -/
def bodyDocumented : DeclBody → Bool
  | .simpleSuite (SmallStmt.exprString _ :: _) => true
  | .indentedBlock _ (BodyLine.simpleLine _ (SmallStmt.exprString _ :: _) :: _) => true
  | _ => false

/-- One block node on the parent chain from a declaration's body up to the
module: a `SimpleStatementSuite` or an `IndentedBlock` with its indent
attribute. -/
inductive EnclosingBlock where
  | suiteBlock
  | indentBlock (indent : Option (List Char))
deriving DecidableEq, Repr

/-- The indentation contributed by one block on the chain: a suite and a
block without an explicit indent contribute the module's default indent. -/
def blockIndent (dflt : List Char) : EnclosingBlock → List Char
  | .suiteBlock => dflt
  | .indentBlock none => dflt
  | .indentBlock (some s) => s

/-- The indent computation of `leave_ClassFunctionDef` for multi-line
documentation: the walk starts at the declaration's own body node and climbs
the parent chain to the module, appending each encountered block's
indentation to the accumulator (`indent += block_indent`), so the innermost
block's indentation ends up leftmost.  `chain` lists the blocks in the order
the walk meets them, innermost first. -/
def computeIndent (dflt : List Char) (chain : List EnclosingBlock) : List Char :=
  chain.foldl (fun acc b => acc ++ blockIndent dflt b) []

/-- The C7 claim's indent, written from its words: the concatenation of the
enclosing blocks' indentation strings from the outermost block to the
innermost (the module contributing nothing). -/
def indentOuterToInner (dflt : List Char) (chain : List EnclosingBlock) : List Char :=
  (chain.reverse.map (blockIndent dflt)).flatten

/-- A class or function declaration as the transformer sees it: its kind and
name, the scope the ScopeProvider reports (None when unavailable), the
UnreachableProvider mark, its body, and the blocks on its parent chain
(innermost first) for the indent walk. -/
structure DeclInfo where
  kind : Bool
  name : String
  scope : Option PyScope
  unreachable : Bool
  body : DeclBody
  blockChain : List EnclosingBlock

/-- The outcome of `leave_ClassFunctionDef` for one declaration: the node
returned unchanged, or returned with a new body. -/
inductive DeclResult where
  | unchanged
  | changed (newBody : DeclBody)
deriving DecidableEq, Repr

/-- The `check_if_needed` method: without the flag everything is processed;
with it, only objects whose source file cannot be recovered. -/
def check_if_needed (ifNeeded : Bool) (obj : PyVal) : Bool :=
  if !ifNeeded then true else !hasSourceFile obj

/-- The docstring insertion at the end of `leave_ClassFunctionDef`: a
single-line suite becomes an indented block whose first line is the new
docstring statement followed by the suite's statements, one per line; an
indented block gets the docstring line prepended; any other body shape
returns the node unchanged. -/
def insertDoc (body : DeclBody) (lit : List Char) : DeclResult :=
  match body with
  | .simpleSuite stmts =>
    .changed (.indentedBlock none
      (BodyLine.simpleLine 0 [.exprString lit]
        :: stmts.map (fun st => BodyLine.simpleLine 0 [st])))
  | .indentedBlock ind lines =>
    .changed (.indentedBlock ind (BodyLine.simpleLine 0 [.exprString lit] :: lines))
  | .otherBody => .unchanged

/-- The `leave_ClassFunctionDef` method for one declaration (`kind` true for
a FunctionDef, false for a ClassDef), in source order: missing scope, then
the unreachability mark, then qualified-name resolution (whose ValueError or
TypeError propagates uncaught), then the already-documented check, then the
symbol lookup, the if-needed check, documentation selection, the
not-a-string warning, `inspect.cleandoc`, the emptiness check, the indent
walk for multi-line text, quoting, and insertion. -/
def processDecl (mod : PyVal) (ifNeeded : Bool) (dfltIndent : List Char)
    (objInitDoc objNewDoc : PyVal) (d : DeclInfo) : Except PyExc DeclResult :=
  match d.scope with
  | none => .ok .unchanged
  | some scope =>
    if d.unreachable then .ok .unchanged
    else
      match get_qualname scope [d.name] with
      | .error e => .error e
      | .ok qualname =>
        if bodyDocumented d.body then .ok .unchanged
        else
          match get_obj mod qualname with
          | none => .ok .unchanged
          | some (scopeObj, obj) =>
            if !check_if_needed ifNeeded obj then .ok .unchanged
            else
              let doc :=
                if d.kind then get_doc_def objInitDoc objNewDoc scopeObj obj d.name
                else get_doc_class obj
              let docStr : Option (List Char) :=
                match doc with
                | .pyNone => none
                | .pyStr s => some (pyCleandoc s)
                | .pyObj _ _ _ _ _ _ _ _ => none
              match docStr with
              | none => .ok .unchanged
              | some s =>
                if s.isEmpty then .ok .unchanged
                else
                  let indent :=
                    if s.contains '\n' then computeIndent dfltIndent d.blockChain
                    else []
                  .ok (insertDoc d.body (docquote_str s indent))

/-- The transformer pass over a file's declarations, in traversal order: an
uncaught exception from one declaration aborts the whole visit. -/
def transformDecls (mod : PyVal) (ifNeeded : Bool) (dfltIndent : List Char)
    (objInitDoc objNewDoc : PyVal) : List DeclInfo → Except PyExc (List DeclResult)
  | [] => .ok []
  | d :: ds =>
    match processDecl mod ifNeeded dfltIndent objInitDoc objNewDoc d with
    | .error e => .error e
    | .ok r =>
      match transformDecls mod ifNeeded dfltIndent objInitDoc objNewDoc ds with
      | .error e => .error e
      | .ok rs => .ok (r :: rs)

/-- A module as `leave_Module` sees it: its body lines and the sizes of its
header and footer line sequences. -/
structure ModuleInfo where
  body : List BodyLine
  headerCount : Nat
  footerCount : Nat
deriving DecidableEq, Repr

/-- The outcome of `leave_Module`. -/
inductive ModResult where
  | unchangedM
  | changedM (m : ModuleInfo)
deriving DecidableEq, Repr

/-- The module-docstring check of `leave_Module`: a nonempty body whose first
line is a SimpleStatementLine starting with a string-literal expression. -/
def moduleDocumented (m : ModuleInfo) : Bool :=
  match m.body with
  | BodyLine.simpleLine _ (SmallStmt.exprString _ :: _) :: _ => true
  | _ => false

/-- Prepends one empty line to a body line's leading lines. -/
def bumpLeading : BodyLine → BodyLine
  | .simpleLine n ss => .simpleLine (n + 1) ss
  | .otherLine n => .otherLine (n + 1)

/-- The `leave_Module` method: an already-documented module is returned
unchanged; otherwise the module object's `__doc__` is read (a falsy value
skips; a truthy non-text value reaches `inspect.cleandoc`, which raises an
uncaught AttributeError — `leave_Module` has no string check), cleaned and
quoted with empty indentation; a nonempty body gets an empty separator line
before its first statement, an empty body gets one appended to the footer; a
nonempty header gets an empty line appended; the docstring statement becomes
the first body line. -/
def processModule (mod : PyVal) (ifNeeded : Bool) (m : ModuleInfo) :
    Except PyExc ModResult :=
  if moduleDocumented m then .ok .unchangedM
  else if !check_if_needed ifNeeded mod then .ok .unchangedM
  else
    match getattrDoc mod with
    | .pyNone => .ok .unchangedM
    | .pyObj _ _ _ _ _ _ _ _ => .error .attributeError
    | .pyStr s =>
      if s.isEmpty then .ok .unchangedM
      else
        let lit := docquote_str (pyCleandoc s) []
        let body1 :=
          match m.body with
          | [] => []
          | first :: rest => bumpLeading first :: rest
        let footer1 := if m.body.isEmpty then m.footerCount + 1 else m.footerCount
        let header1 := if m.headerCount ≠ 0 then m.headerCount + 1 else m.headerCount
        .ok (.changedM
          ⟨BodyLine.simpleLine 0 [.exprString lit] :: body1, header1, footer1⟩)

/-- One whole file through the transformer: the declarations are visited
first (leave methods run before the module's own leave), then `leave_Module`;
an uncaught exception anywhere aborts the file. -/
def transformFile (mod : PyVal) (ifNeeded : Bool) (dfltIndent : List Char)
    (objInitDoc objNewDoc : PyVal) (decls : List DeclInfo) (m : ModuleInfo) :
    Except PyExc (List DeclResult × ModResult) :=
  match transformDecls mod ifNeeded dfltIndent objInitDoc objNewDoc decls with
  | .error e => .error e
  | .ok rs =>
    match processModule mod ifNeeded m with
    | .error e => .error e
    | .ok mr => .ok (rs, mr)

/-- C7 (corrected claim): for a declaration receiving multi-line text, the
indentation passed to the quoting step equals the concatenation of the
indentation strings of every enclosing block from the INNERMOST block to the
outermost (the module contributing the empty string) — the reverse of the
claimed outer-to-inner order, observable whenever two levels indent
differently. -/
theorem c7_indent_amended (dflt : List Char) (chain : List EnclosingBlock) :
    computeIndent dflt chain = (chain.map (blockIndent dflt)).flatten := by
  have haux : ∀ (c : List EnclosingBlock) (acc : List Char),
      c.foldl (fun a b => a ++ blockIndent dflt b) acc
        = acc ++ (c.map (blockIndent dflt)).flatten := by
    intro c
    induction c with
    | nil => intro acc; simp
    | cons b t ih => intro acc; simp [List.foldl_cons, ih]
  simpa [computeIndent] using haux chain []

/-- C7 counterexample: a declaration body indented with two spaces inside a
class block indented with a tab; the walk produces the inner indent first, so
the computed string is "  \t" while the claim's outer-to-inner concatenation
is "\t  ". -/
theorem c7_counterexample :
    computeIndent ['d'] [.indentBlock (some [' ', ' ']), .indentBlock (some ['\t'])]
      = [' ', ' ', '\t'] ∧
    indentOuterToInner ['d'] [.indentBlock (some [' ', ' ']), .indentBlock (some ['\t'])]
      = ['\t', ' ', ' '] ∧
    computeIndent ['d'] [.indentBlock (some [' ', ' ']), .indentBlock (some ['\t'])]
      ≠ indentOuterToInner ['d']
          [.indentBlock (some [' ', ' ']), .indentBlock (some ['\t'])] := by
  refine ⟨rfl, rfl, ?_⟩
  decide

/-- C2 (corrected claim): a declaration whose live-symbol lookup fails is
skipped — left unchanged, with trace logging — and the processing of the
remaining declarations continues; but a declaration whose qualified-name
resolution fails (an intermediate scope without a name, or an enclosing
scope that is not a class or module scope) raises an uncaught exception that
aborts the processing of the whole file. -/
theorem c2_resolution_miss_amended :
    (∀ (mod : PyVal) (ifN : Bool) (dflt : List Char) (oid ond : PyVal)
        (d : DeclInfo) (ds : List DeclInfo) (sc : PyScope) (q : List String),
      d.scope = some sc → d.unreachable = false →
      get_qualname sc [d.name] = .ok q →
      bodyDocumented d.body = false →
      get_obj mod q = none →
      transformDecls mod ifN dflt oid ond (d :: ds)
        = (transformDecls mod ifN dflt oid ond ds).map
            (fun rs => DeclResult.unchanged :: rs)) ∧
    (∀ (mod : PyVal) (ifN : Bool) (dflt : List Char) (oid ond : PyVal)
        (d : DeclInfo) (ds : List DeclInfo) (sc : PyScope) (e : PyExc),
      d.scope = some sc → d.unreachable = false →
      get_qualname sc [d.name] = .error e →
      transformDecls mod ifN dflt oid ond (d :: ds) = .error e) := by
  constructor
  · intro mod ifN dflt oid ond d ds sc q hsc hun hq hdoc hobj
    have hpd : processDecl mod ifN dflt oid ond d = .ok .unchanged := by
      simp [processDecl, hsc, hun, hq, hdoc, hobj]
    simp only [transformDecls, hpd]
    cases transformDecls mod ifN dflt oid ond ds <;> simp [Except.map]
  · intro mod ifN dflt oid ond d ds sc e hsc hun hq
    have hpd : processDecl mod ifN dflt oid ond d = .error e := by
      simp [processDecl, hsc, hun, hq]
    simp [transformDecls, hpd]

/-- Witness for c2_resolution_miss_amended: a declaration at module scope
whose symbol is absent from the loaded module is skipped and the (empty)
remainder of the file is still processed. -/
theorem c2_resolution_miss_amended_witness :
    transformDecls .pyNone false [] .pyNone .pyNone
        [⟨true, "f", some .globalScope, false, .indentedBlock none [], []⟩]
      = (transformDecls .pyNone false [] .pyNone .pyNone []).map
          (fun rs => DeclResult.unchanged :: rs) :=
  c2_resolution_miss_amended.1 .pyNone false [] .pyNone .pyNone
    ⟨true, "f", some .globalScope, false, .indentedBlock none [], []⟩ []
    .globalScope ["f"] rfl rfl rfl rfl rfl

/-- C2 counterexample: the first declaration's enclosing scope is a function
scope, so qualified-name resolution raises TypeError and the whole file
aborts — the second declaration, which alone is processed fine, is never
reached, contradicting the claim that only the failing declaration is
skipped. -/
theorem c2_counterexample :
    transformDecls .pyNone false [] .pyNone .pyNone
        [⟨true, "g", some (.funcScope .globalScope), false, .indentedBlock none [], []⟩,
         ⟨true, "h", some .globalScope, false,
           .indentedBlock none [BodyLine.simpleLine 0 [SmallStmt.exprString ['d']]], []⟩]
      = .error .typeError ∧
    transformDecls .pyNone false [] .pyNone .pyNone
        [⟨true, "h", some .globalScope, false,
           .indentedBlock none [BodyLine.simpleLine 0 [SmallStmt.exprString ['d']]], []⟩]
      = .ok [.unchanged] :=
  ⟨rfl, rfl⟩

/-- Scope chains on which `get_qualname` cannot raise: class scopes with
non-empty names terminating at the module's global scope. -/
def resolvableScope : PyScope → Bool
  | .globalScope => true
  | .classScope (some s) p => !(s == "") && resolvableScope p
  | _ => false

theorem get_qualname_ok_of_resolvable :
    ∀ (sc : PyScope), resolvableScope sc = true →
    ∀ acc, ∃ q, get_qualname sc acc = .ok q
  | .globalScope, _, acc => ⟨acc, rfl⟩
  | .classScope (some s) p, h, acc => by
    simp only [resolvableScope, Bool.and_eq_true, Bool.not_eq_true'] at h
    have hs : ¬ s = "" := beq_eq_false_iff_ne.mp h.1
    simp only [get_qualname, if_neg hs]
    exact get_qualname_ok_of_resolvable p h.2 (s :: acc)

/-- C4 (corrected claim): for a stub file in which the module's first
statement is a string-literal expression and every declaration's body begins
with a string-literal expression statement, and in which additionally every
declaration's reported scope chain is resolvable (class scopes with names
under the module scope — in particular, no declaration nested inside a
function body), the transformer returns every node unchanged, so the
serialized output of the lossless printer equals the input byte for byte. -/
theorem c4_roundtrip_amended (mod : PyVal) (ifN : Bool) (dflt : List Char)
    (oid ond : PyVal) (decls : List DeclInfo) (m : ModuleInfo)
    (hd : ∀ d ∈ decls, bodyDocumented d.body = true ∧
      (d.unreachable = true ∨ d.scope = none ∨
        ∃ sc, d.scope = some sc ∧ resolvableScope sc = true))
    (hm : moduleDocumented m = true) :
    transformFile mod ifN dflt oid ond decls m
      = .ok (decls.map (fun _ => DeclResult.unchanged), .unchangedM) := by
  have hds : transformDecls mod ifN dflt oid ond decls
      = .ok (decls.map (fun _ => DeclResult.unchanged)) := by
    induction decls with
    | nil => rfl
    | cons d ds ih =>
      obtain ⟨hdoc, hsc⟩ := hd d (List.mem_cons_self d ds)
      have hpd : processDecl mod ifN dflt oid ond d = .ok .unchanged := by
        rcases hsc with h | h | ⟨sc, hsc2, hres⟩
        · cases hscope : d.scope with
          | none => simp [processDecl, hscope]
          | some sc => simp [processDecl, hscope, h]
        · simp [processDecl, h]
        · obtain ⟨q, hq⟩ := get_qualname_ok_of_resolvable sc hres [d.name]
          by_cases hu : d.unreachable
          · simp [processDecl, hsc2, hu]
          · simp [processDecl, hsc2, hu, hq, hdoc]
      simp only [transformDecls, hpd,
        ih (fun x hx => hd x (List.mem_cons_of_mem d hx)), List.map_cons]
  have hmod : processModule mod ifN m = .ok .unchangedM := by
    simp [processModule, hm]
  simp [transformFile, hds, hmod]

/-- Witness for c4_roundtrip_amended: a one-function, fully documented
module is returned unchanged. -/
theorem c4_roundtrip_amended_witness :
    transformFile .pyNone false [] .pyNone .pyNone
        [⟨true, "f", some .globalScope, false,
          .indentedBlock none [BodyLine.simpleLine 0 [SmallStmt.exprString ['d']]], []⟩]
        ⟨[BodyLine.simpleLine 0 [SmallStmt.exprString ['m']]], 0, 0⟩
      = .ok (([(⟨true, "f", some .globalScope, false,
          DeclBody.indentedBlock none [BodyLine.simpleLine 0 [SmallStmt.exprString ['d']]],
          []⟩ : DeclInfo)]).map (fun _ => DeclResult.unchanged), .unchangedM) :=
  c4_roundtrip_amended .pyNone false [] .pyNone .pyNone
    [⟨true, "f", some .globalScope, false,
      .indentedBlock none [BodyLine.simpleLine 0 [SmallStmt.exprString ['d']]], []⟩]
    ⟨[BodyLine.simpleLine 0 [SmallStmt.exprString ['m']]], 0, 0⟩
    (by
      rintro d hd
      rcases List.mem_singleton.mp hd with rfl
      exact ⟨rfl, Or.inr (Or.inr ⟨.globalScope, rfl, rfl⟩)⟩)
    rfl

/-- C4 counterexample: a fully documented file whose single documented
function is nested inside a function body; the qualified-name walk raises
TypeError before the already-documented check runs, so the transformer
aborts instead of returning every node unchanged. -/
theorem c4_counterexample :
    bodyDocumented (DeclBody.indentedBlock none
        [BodyLine.simpleLine 0 [SmallStmt.exprString ['d']]]) = true ∧
    moduleDocumented ⟨[BodyLine.simpleLine 0 [SmallStmt.exprString ['m']]], 0, 0⟩ = true ∧
    transformFile .pyNone false [] .pyNone .pyNone
        [⟨true, "g", some (.funcScope .globalScope), false,
          .indentedBlock none [BodyLine.simpleLine 0 [SmallStmt.exprString ['d']]], []⟩]
        ⟨[BodyLine.simpleLine 0 [SmallStmt.exprString ['m']]], 0, 0⟩
      = .error .typeError :=
  ⟨rfl, rfl, rfl⟩

/-! ## Orchestrator: queue construction and the per-file loop (run) -/

/-- The module names the orchestrator drops unconditionally
(`IGNORE_MODULES` at docify.py line 26). -/
def IGNORE_MODULES : List String := ["antigravity", "this"]

/-- A candidate file found by the directory walk, as a path relative to the
input directory: its directory segments, its stem, and its extension
(including the dot). -/
structure StubFile where
  dirs : List String
  stem : String
  ext : String
deriving DecidableEq, Repr

/-- Derives the dotted module path of one candidate file: only files with the
stub suffix are considered; the relative path with the suffix dropped gives
the segments; when the input directory itself is a package, its name is
prepended; a trailing `__init__` segment is dropped; the segments are joined
with the dot separator. -/
def importPathOf (includeRoot : Bool) (root : String) (f : StubFile) :
    Option String :=
  if f.ext ≠ ".pyi" then none
  else
    let segs := f.dirs ++ [f.stem]
    let segs := if includeRoot then root :: segs else segs
    let segs := if segs.getLast? = some "__init__" then segs.dropLast else segs
    some (String.intercalate "." segs)

/-- The queue-construction loop of `run`: a file enters the processing queue
when it has the stub suffix, its dotted module path is not in
`IGNORE_MODULES`, and — under the builtins-only flag — the path names a
built-in module.  The ignore check runs before (and independently of) the
builtins-only flag. -/
def buildQueue (includeRoot : Bool) (root : String) (builtinsOnly : Bool)
    (builtins : List String) (files : List StubFile) : List (String × StubFile) :=
  files.filterMap (fun f =>
    match importPathOf includeRoot root f with
    | none => none
    | some ip =>
      if ip ∈ IGNORE_MODULES then none
      else if builtinsOnly && ip ∉ builtins then none
      else some (ip, f))

/-- The externally determined outcomes of the side effects `run` performs for
one file: whether the import succeeds, whether parsing succeeds, whether the
transformer raises an uncaught exception, whether writing the (temporary)
output file succeeds, and whether the metadata copy and atomic rename
succeed. -/
structure FileWorld where
  importOk : Bool
  parseOk : Bool
  transformRaises : Bool
  writeOk : Bool
  renameOk : Bool
deriving DecidableEq, Repr

/-- The observable outcome of the `run` loop: the import paths whose
processing was attempted (the import call made), the files successfully
written, the temporary files removed by the cleanup handler, the temporary
files left behind, and whether an uncaught exception aborted the loop. -/
structure RunResult where
  attempted : List String
  written : List String
  tempRemoved : List String
  tempLeaked : List String
  aborted : Bool
deriving DecidableEq, Repr

/-- The per-file loop of `run`: an import failure is caught, logged and the
loop continues; a parse failure likewise; an uncaught transformer exception
propagates out of the loop (nothing catches it in `run`); in the in-place
mode a write failure triggers the cleanup handler (the temporary file is
removed) and the bare `raise` re-raises, aborting the loop; a failure of
`shutil.copystat` or `os.replace` is not caught at all, aborting the loop
with the temporary file left behind; in the output-directory mode a write
failure aborts the loop with no temporary file involved. -/
def runLoop (inPlace : Bool) (w : String → FileWorld) :
    List (String × StubFile) → RunResult
  | [] => ⟨[], [], [], [], false⟩
  | (ip, _) :: rest =>
    let fw := w ip
    if !fw.importOk then
      let r := runLoop inPlace w rest
      ⟨ip :: r.attempted, r.written, r.tempRemoved, r.tempLeaked, r.aborted⟩
    else if !fw.parseOk then
      let r := runLoop inPlace w rest
      ⟨ip :: r.attempted, r.written, r.tempRemoved, r.tempLeaked, r.aborted⟩
    else if fw.transformRaises then ⟨[ip], [], [], [], true⟩
    else if inPlace then
      if !fw.writeOk then ⟨[ip], [], [ip], [], true⟩
      else if !fw.renameOk then ⟨[ip], [], [], [ip], true⟩
      else
        let r := runLoop inPlace w rest
        ⟨ip :: r.attempted, ip :: r.written, r.tempRemoved, r.tempLeaked, r.aborted⟩
    else
      if !fw.writeOk then ⟨[ip], [], [], [], true⟩
      else
        let r := runLoop inPlace w rest
        ⟨ip :: r.attempted, ip :: r.written, r.tempRemoved, r.tempLeaked, r.aborted⟩

theorem runLoop_attempted_cases (inPlace : Bool) (w : String → FileWorld)
    (ip : String) (f : StubFile) (rest : List (String × StubFile)) :
    (runLoop inPlace w ((ip, f) :: rest)).attempted = [ip] ∨
    (runLoop inPlace w ((ip, f) :: rest)).attempted
      = ip :: (runLoop inPlace w rest).attempted := by
  simp only [runLoop]
  by_cases h1 : (w ip).importOk
  · by_cases h2 : (w ip).parseOk
    · by_cases h3 : (w ip).transformRaises
      · simp [h1, h2, h3]
      · by_cases h4 : inPlace
        · by_cases h5 : (w ip).writeOk
          · by_cases h6 : (w ip).renameOk
            · simp [h1, h2, h3, h4, h5, h6]
            · simp [h1, h2, h3, h4, h5, h6]
          · simp [h1, h2, h3, h4, h5]
        · by_cases h5 : (w ip).writeOk
          · simp [h1, h2, h3, h4, h5]
          · simp [h1, h2, h3, h4, h5]
    · simp [h1, h2]
  · simp [h1]

theorem runLoop_attempted_subset (inPlace : Bool) (w : String → FileWorld) :
    ∀ (q : List (String × StubFile)) (p : String),
      p ∈ (runLoop inPlace w q).attempted → p ∈ q.map Prod.fst
  | [], p => by intro h; cases h
  | (ip, f) :: rest, p => by
    intro h
    rcases runLoop_attempted_cases inPlace w ip f rest with hc | hc <;> rw [hc] at h
    · rcases List.mem_singleton.mp h with rfl
      simp
    · rcases List.mem_cons.mp h with rfl | h
      · simp
      · simp only [List.map_cons]
        exact List.mem_cons_of_mem _ (runLoop_attempted_subset inPlace w rest p h)

/-- C10: a stub file whose derived dotted module path is "antigravity" or
"this" never enters the processing queue, regardless of the builtins-only
flag and of how the path was derived; consequently no iteration of the run
loop ever attempts it — it is never imported, parsed, enriched or
rewritten. -/
theorem c10_ignored_modules (includeRoot : Bool) (root : String)
    (builtinsOnly : Bool) (builtins : List String) (files : List StubFile)
    (ip : String) (hip : ip ∈ IGNORE_MODULES) :
    (∀ e ∈ buildQueue includeRoot root builtinsOnly builtins files, e.1 ≠ ip) ∧
    (∀ (inPlace : Bool) (w : String → FileWorld),
      ip ∉ (runLoop inPlace w
        (buildQueue includeRoot root builtinsOnly builtins files)).attempted) := by
  have hq : ∀ e ∈ buildQueue includeRoot root builtinsOnly builtins files, e.1 ≠ ip := by
    intro e he
    simp only [buildQueue, List.mem_filterMap] at he
    obtain ⟨f, _, hf⟩ := he
    cases hipf : importPathOf includeRoot root f with
    | none => rw [hipf] at hf; cases hf
    | some p =>
      rw [hipf] at hf
      dsimp only at hf
      by_cases hign : p ∈ IGNORE_MODULES
      · rw [if_pos hign] at hf; cases hf
      · rw [if_neg hign] at hf
        by_cases hbo : (builtinsOnly && decide (p ∉ builtins)) = true
        · rw [if_pos hbo] at hf; cases hf
        · rw [if_neg hbo] at hf
          injection hf with hf
          rw [← hf]
          intro hcontra
          rw [show ((p, f) : String × StubFile).1 = p from rfl] at hcontra
          rw [hcontra] at hign
          exact hign hip
  refine ⟨hq, ?_⟩
  intro inPlace w hmem
  have hin := runLoop_attempted_subset inPlace w _ ip hmem
  obtain ⟨e, he, hfst⟩ := List.mem_map.mp hin
  exact hq e he hfst

/-- Witness for c10_ignored_modules: a directory containing the stub
antigravity.pyi; the file is dropped from the queue and never attempted. -/
theorem c10_ignored_modules_witness :
    (∀ e ∈ buildQueue false "" false [] [⟨[], "antigravity", ".pyi"⟩],
      e.1 ≠ "antigravity") ∧
    (∀ (inPlace : Bool) (w : String → FileWorld),
      "antigravity" ∉ (runLoop inPlace w
        (buildQueue false "" false [] [⟨[], "antigravity", ".pyi"⟩])).attempted) :=
  c10_ignored_modules false "" false [] [⟨[], "antigravity", ".pyi"⟩]
    "antigravity" (by decide)

/-- C3 (corrected claim): when writing the temporary output file for one stub
file fails, the temporary file is removed and the exception propagates out of
the processing loop, so none of the remaining files in the queue is
processed; when the metadata copy or rename fails, the loop aborts the same
way but the temporary file is left behind. -/
theorem c3_write_failure_amended (w : String → FileWorld) (ip : String)
    (f : StubFile) (rest : List (String × StubFile))
    (h1 : (w ip).importOk = true) (h2 : (w ip).parseOk = true)
    (h3 : (w ip).transformRaises = false) :
    ((w ip).writeOk = false →
      runLoop true w ((ip, f) :: rest) = ⟨[ip], [], [ip], [], true⟩) ∧
    ((w ip).writeOk = true → (w ip).renameOk = false →
      runLoop true w ((ip, f) :: rest) = ⟨[ip], [], [], [ip], true⟩) := by
  constructor
  · intro h4
    simp [runLoop, h1, h2, h3, h4]
  · intro h4 h5
    simp [runLoop, h1, h2, h3, h4, h5]

/-- Witness for c3_write_failure_amended: a two-file queue whose first file
fails at the write step; the temporary file is removed and the second file is
never attempted. -/
theorem c3_write_failure_amended_witness :
    runLoop true (fun _ => ⟨true, true, false, false, true⟩)
        [("a", ⟨[], "a", ".pyi"⟩), ("b", ⟨[], "b", ".pyi"⟩)]
      = ⟨["a"], [], ["a"], [], true⟩ :=
  (c3_write_failure_amended (fun _ => ⟨true, true, false, false, true⟩) "a"
      ⟨[], "a", ".pyi"⟩ [("b", ⟨[], "b", ".pyi"⟩)] rfl rfl rfl).1 rfl

/-- C3 counterexample: a queue of two files where the first fails at the
write step (respectively at the rename step).  In both cases the run loop
aborts and the second file is never processed, contradicting "every
remaining file in the processing queue is still processed"; and in the
rename case the temporary file is not removed. -/
theorem c3_counterexample :
    (runLoop true
        (fun ip => if ip = "a" then ⟨true, true, false, false, true⟩
          else ⟨true, true, false, true, true⟩)
        [("a", ⟨[], "a", ".pyi"⟩), ("b", ⟨[], "b", ".pyi"⟩)])
      = ⟨["a"], [], ["a"], [], true⟩ ∧
    (runLoop true
        (fun ip => if ip = "a" then ⟨true, true, false, true, false⟩
          else ⟨true, true, false, true, true⟩)
        [("a", ⟨[], "a", ".pyi"⟩), ("b", ⟨[], "b", ".pyi"⟩)])
      = ⟨["a"], [], [], ["a"], true⟩ := by
  constructor <;> decide

end Docify
